import Mathlib

/-!
# Verification of the biopath command-line front end

Shallow embedding of the `biopath` binary (modules `main.rs`, `query.rs`,
`index.rs`, `statistics.rs`, `io_util.rs`) together with a spec-modelled
account of the external path engines, and proofs of the specification's
claims about it.

Bytes are modelled as `Nat` (values below 256 in all uses), paths and file
contents as `String` / `List Nat`, and the fallible Rust functions as
`Except String` or a dedicated outcome type that also records panics.
-/

namespace Biopath

/-- The error message produced by `index.rs`, `statistics.rs` and `query.rs`
for an unsupported word size.  All three source files use the identical
format string `"Unsupported word size: {}. Supported are 8, 16, 32 and 64."`. -/
def unsupportedMsg (w : Nat) : String :=
  "Unsupported word size: " ++ toString w ++ ". Supported are 8, 16, 32 and 64."

/-- Which path engine a query run uses: `direct` is `GfaDijkstra` (plain
Dijkstra on the graph, used by `run_without_index`), `overlay` is
`OverlayDijkstra` over the `SPQRDecompositionOverlay` (used by
`run_with_word_size`). -/
inductive EngineChoice where
  | direct : EngineChoice
  | overlay : EngineChoice
deriving DecidableEq

/-- The per-run configuration that `query::run` fixes before executing any
query: the engine, the word width `IndexType` is instantiated at, whether the
slow-Dijkstra warning was emitted, and the index payload handed on to
`SPQRDecompositionOverlay::read_binary` (everything after the header byte). -/
structure RunSelection where
  engine : EngineChoice
  wordSize : Nat
  warned : Bool
  payload : List Nat
deriving DecidableEq

/-- Embeds `query::run` (`query.rs` lines 69-103).  The argument is the
content of the index file when `--index-in` was supplied (`none` when it was
not).  With no index the run warns and calls `run_without_index::<u64>`;
otherwise it reads exactly one header byte, dispatches
`run_with_word_size::<u8|u16|u32|u64>` on it, and rejects every other value
with the `unsupportedMsg` error. -/
def queryRun (indexIn : Option (List Nat)) : Except String RunSelection :=
  match indexIn with
  | none => .ok ⟨.direct, 64, true, []⟩
  | some [] => .error "Failed to read index header"
  | some (b :: rest) =>
    if b = 8 ∨ b = 16 ∨ b = 32 ∨ b = 64 then
      .ok ⟨.overlay, b, false, rest⟩
    else
      .error (unsupportedMsg b)

/-- Embeds `index::run` together with the header write of
`index::run_with_word_size` (`index.rs` lines 40-51 and 77-85): for a
supported `--word-size` the output file is the single header byte
`size_of::<IndexType>() * 8 = w` followed by the overlay payload (taken here
as a parameter, since `SPQRDecompositionOverlay::write_binary` is external);
any other word size is rejected with the `unsupportedMsg` error. -/
def indexRun (wordSize : Nat) (payload : List Nat) : Except String (List Nat) :=
  if wordSize = 8 ∨ wordSize = 16 ∨ wordSize = 32 ∨ wordSize = 64 then
    .ok (wordSize :: payload)
  else
    .error (unsupportedMsg wordSize)

/-- Embeds the word-size dispatch of `statistics::run` (`statistics.rs`
lines 62-73): a supported `--word-size` selects that instantiation, any other
value is rejected with the `unsupportedMsg` error. -/
def statisticsRun (wordSize : Nat) : Except String Nat :=
  if wordSize = 8 ∨ wordSize = 16 ∨ wordSize = 32 ∨ wordSize = 64 then
    .ok wordSize
  else
    .error (unsupportedMsg wordSize)

/-- C2: with an index file present, `query::run` reads the one-byte width
header first: a header byte in {8,16,32,64} instantiates the whole run at
exactly that width with the remaining bytes as payload, and any other header
byte fails with the named "Unsupported word size" error mentioning that
byte, regardless of the payload. -/
theorem query_header_width_discipline (b : Nat) (rest : List Nat) :
    ((b = 8 ∨ b = 16 ∨ b = 32 ∨ b = 64) →
      queryRun (some (b :: rest)) = .ok ⟨.overlay, b, false, rest⟩) ∧
    (¬(b = 8 ∨ b = 16 ∨ b = 32 ∨ b = 64) →
      queryRun (some (b :: rest)) = .error (unsupportedMsg b)) := by
  constructor
  · intro h
    simp [queryRun, h]
  · intro h
    simp [queryRun, h]

/-- Witness for C2: header byte 16 runs at width 16 with the payload intact,
and header byte 7 fails with the named error. -/
theorem query_header_width_discipline_witness :
    queryRun (some [16, 9]) = .ok ⟨.overlay, 16, false, [9]⟩ ∧
    queryRun (some [7]) = .error (unsupportedMsg 7) :=
  ⟨(query_header_width_discipline 16 [9]).1 (by decide),
   (query_header_width_discipline 7 []).2 (by decide)⟩

/-- C3: for a supported word size `w`, the `index` subcommand writes exactly
one header byte equal to `w` before the overlay payload, the `query`
subcommand auto-discovers exactly `w` from that header, and the `statistics`
subcommand accepts `w`; for any other word size, both `index` and
`statistics` fail with the error naming the supported values. -/
theorem index_header_equals_word_size (w : Nat) (payload : List Nat) :
    ((w = 8 ∨ w = 16 ∨ w = 32 ∨ w = 64) →
      indexRun w payload = .ok (w :: payload) ∧
      queryRun (some (w :: payload)) = .ok ⟨.overlay, w, false, payload⟩ ∧
      statisticsRun w = .ok w) ∧
    (¬(w = 8 ∨ w = 16 ∨ w = 32 ∨ w = 64) →
      indexRun w payload = .error (unsupportedMsg w) ∧
      statisticsRun w = .error (unsupportedMsg w)) := by
  constructor
  · intro h
    refine ⟨by simp [indexRun, h], by simp [queryRun, h], by simp [statisticsRun, h]⟩
  · intro h
    exact ⟨by simp [indexRun, h], by simp [statisticsRun, h]⟩

/-- Witness for C3: building at width 8 writes header byte 8 and querying
reads width 8 back; width 9 is rejected by `index` and `statistics`. -/
theorem index_header_equals_word_size_witness :
    (indexRun 8 [5] = .ok [8, 5] ∧
      queryRun (some [8, 5]) = .ok ⟨.overlay, 8, false, [5]⟩ ∧
      statisticsRun 8 = .ok 8) ∧
    (indexRun 9 [] = .error (unsupportedMsg 9) ∧
      statisticsRun 9 = .error (unsupportedMsg 9)) :=
  ⟨(index_header_equals_word_size 8 [5]).1 (by decide),
   (index_header_equals_word_size 9 []).2 (by decide)⟩

/-- C8: whenever `query::run` succeeds, the engine it selected is the Direct
(plain Dijkstra) engine with the slowness warning emitted exactly when no
index was supplied, and the Overlay engine exactly when an index was
supplied.  `queryRun` is a pure function of the optional index evaluated
once per run, so the selection cannot change within a run. -/
theorem query_engine_selection (i : Option (List Nat)) (sel : RunSelection)
    (h : queryRun i = .ok sel) :
    ((sel.engine = .direct ∧ sel.warned = true) ↔ i = none) ∧
    (sel.engine = .overlay ↔ i ≠ none) := by
  match i with
  | none =>
    simp only [queryRun, Except.ok.injEq] at h
    subst h
    simp
  | some [] =>
    simp [queryRun] at h
  | some (b :: rest) =>
    simp only [queryRun] at h
    split at h
    · simp only [Except.ok.injEq] at h
      subst h
      simp
    · simp at h

/-- Witness for C8: the no-index run selects the Direct engine with the
warning emitted. -/
theorem query_engine_selection_witness :
    (((⟨.direct, 64, true, []⟩ : RunSelection).engine = .direct ∧
        (⟨.direct, 64, true, []⟩ : RunSelection).warned = true) ↔
      (none : Option (List Nat)) = none) ∧
    ((⟨.direct, 64, true, []⟩ : RunSelection).engine = .overlay ↔
      (none : Option (List Nat)) ≠ none) :=
  query_engine_selection none ⟨.direct, 64, true, []⟩ rfl

/-- Returns `true` when the second list is a contiguous leading segment of
the first; helper for the substring test below. -/
def charsHaveLead : List Char → List Char → Bool
  | _, [] => true
  | [], _ :: _ => false
  | a :: as, b :: bs => (a == b) && charsHaveLead as bs

/-- Returns `true` when the second list occurs contiguously inside the first. -/
def charsHaveSub : List Char → List Char → Bool
  | [], needle => needle.isEmpty
  | h :: t, needle => charsHaveLead (h :: t) needle || charsHaveSub t needle

/-- Returns `true` when `needle` occurs as a substring of `hay`. -/
def strHasSub (hay needle : String) : Bool :=
  charsHaveSub hay.toList needle.toList

/-- Embeds Rust's `str::trim`: drop leading and trailing whitespace
characters (for the ASCII inputs at hand, Lean's `Char.isWhitespace`
coincides with Rust's Unicode `White_Space`). -/
def trimChars (l : List Char) : List Char :=
  ((l.dropWhile Char.isWhitespace).reverse.dropWhile Char.isWhitespace).reverse

/-- Embeds Rust's `str::split('\t')` (on an already-trimmed line): splits at
every tab, keeping empty pieces, and yields one (possibly empty) piece for
the empty input. -/
def splitTabsAux : List Char → List Char → List String
  | [], acc => [String.mk acc.reverse]
  | c :: rest, acc =>
    if c = '\t' then String.mk acc.reverse :: splitTabsAux rest []
    else splitTabsAux rest (c :: acc)

/-- The column list of a query line: `line.trim().split('\t')`
(`query.rs` line 155). -/
def columnsOf (line : String) : List String :=
  splitTabsAux (trimChars line.toList) []

/-- Embeds `u64::from_str` as used for offsets (`column[2].parse::<IndexType>()`):
an optional leading `+`, then at least one digit; the width bound of
`IndexType` is not modelled (offsets are unbounded `Nat`). -/
def parseOffset (s : String) : Option Nat :=
  let l := match s.toList with
    | '+' :: rest => rest
    | l => l
  match l with
  | [] => none
  | l =>
    if l.all Char.isDigit then
      some (l.foldl (fun acc c => acc * 10 + (c.toNat - 48)) 0)
    else none

/-- A parsed query endpoint as `query.rs` builds it: a resolved node index,
the orientation (`+` = forward), and an offset.  Mirrors
`GfaLocation<IndexType>`; offsets are modelled as unbounded `Nat`. -/
structure QLoc where
  node : Nat
  forward : Bool
  offset : Nat
deriving DecidableEq

/-- One parsed query line: the first triple is the source, the remaining
triples are the targets (`struct Query` in `query.rs`, before execution). -/
structure ParsedQuery where
  source : QLoc
  targets : List QLoc
deriving DecidableEq

/-- Outcome of running a fallible piece of Rust: a value, an `anyhow` error
carrying its message, or a panic (an `unwrap`/index failure that aborts the
process without a recoverable error). -/
inductive ParseOutcome (α : Type) where
  | ok : α → ParseOutcome α
  | error : String → ParseOutcome α
  | panic : ParseOutcome α
deriving DecidableEq

/-- Rust's `slice::chunks(3)`: chunks of three, the last possibly shorter,
no chunks for the empty slice. -/
def chunksOf3 {α : Type} : List α → List (List α)
  | [] => []
  | a :: b :: c :: rest => [a, b, c] :: chunksOf3 rest
  | l => [l]

/-- The common shape of the four parse-error messages in `query.rs`
(`"Invalid query line in file {:?}: ..."`); the file path is modelled as its
displayed string. -/
def invalidQueryLine (file detail : String) : String :=
  "Invalid query line in file " ++ file ++ ": " ++ detail

/-- Embeds the per-chunk loop of the query parser (`query.rs` lines
156-189, identical in `run_without_index` lines 318-351).  `idx` is the
`node_name_index` HashMap (`query.rs` lines 125-128): the Rust code indexes
it with `node_name_index[node_name]`, which panics when the key is absent,
hence the `.panic` outcome.  `colCount` is `columns.len()`, quoted by the
chunk-length error message. -/
def parseChunks (idx : String → Option Nat) (file : String) (colCount : Nat) :
    List (List String) → Option QLoc → List QLoc →
      ParseOutcome (Option QLoc × List QLoc)
  | [], source, targets => .ok (source, targets)
  | chunk :: rest, source, targets =>
    match chunk with
    | [nodeName, orientation, offsetText] =>
      match (if orientation = "+" then some true
             else if orientation = "-" then some false else none) with
      | none =>
        .error (invalidQueryLine file
          ("expected orientation to be either '+' or '-', got '" ++ orientation ++ "'"))
      | some forward =>
        match parseOffset offsetText with
        | none =>
          .error (invalidQueryLine file ("failed to parse offset '" ++ offsetText ++ "'"))
        | some offset =>
          match idx nodeName with
          | none => .panic
          | some node =>
            match source with
            | none => parseChunks idx file colCount rest (some ⟨node, forward, offset⟩) targets
            | some s =>
              parseChunks idx file colCount rest (some s) (targets ++ [⟨node, forward, offset⟩])
    | _ =>
      .error (invalidQueryLine file
        ("expected a number of columns that is divisible by 3, got " ++ toString colCount))

/-- Embeds the parsing of one query line (`query.rs` lines 145-199 /
307-361): trim, split on tabs, walk the chunks of three, then require at
least one source and one target. -/
def parseQueryLine (idx : String → Option Nat) (file line : String) :
    ParseOutcome ParsedQuery :=
  let columns := columnsOf line
  match parseChunks idx file columns.length (chunksOf3 columns) none [] with
  | .ok (source, targets) =>
    match source with
    | none =>
      .error (invalidQueryLine file
        ("expected at least one source and one target location, got line '" ++ line ++ "'"))
    | some s =>
      if targets.isEmpty then
        .error (invalidQueryLine file
          ("expected at least one source and one target location, got line '" ++ line ++ "'"))
      else
        .ok ⟨s, targets⟩
  | .error e => .error e
  | .panic => .panic

/-- A concrete two-node name index for counterexamples: the graph contains
nodes "A" and "B" only. -/
def exIdx : String → Option Nat :=
  fun name => if name = "A" then some 0 else if name = "B" then some 1 else none

/-- C5 at its failing input: a query line whose source node name "C" is
absent from the graph makes the parser panic (the HashMap index expression
`node_name_index[node_name]` aborts the process) instead of surfacing an
error. -/
theorem missing_node_name_panics :
    parseQueryLine exIdx "queries.tsv" "C\t+\t0\tB\t+\t0" = ParseOutcome.panic := by
  decide

/-- A column list whose length is not divisible by 3 produces a chunk of
length other than 3 (Rust's `chunks(3)` leaves a short final chunk). -/
theorem chunksOf3_has_short {α : Type} :
    ∀ (l : List α), l.length % 3 ≠ 0 → ∃ ch ∈ chunksOf3 l, ch.length ≠ 3
  | [], h => by simp at h
  | [a], _ => ⟨[a], by simp [chunksOf3], by simp⟩
  | [a, b], _ => ⟨[a, b], by simp [chunksOf3], by simp⟩
  | a :: b :: c :: rest, h => by
    have h' : rest.length % 3 ≠ 0 := by
      simp only [List.length_cons] at h
      omega
    obtain ⟨ch, hm, hl⟩ := chunksOf3_has_short rest h'
    exact ⟨ch, by simp [chunksOf3, hm], hl⟩

/-- If some chunk does not have exactly three columns and every node name
resolves, the chunk loop ends in an error message that embeds the query
file's path. -/
theorem parseChunks_bad_chunk (idx : String → Option Nat) (file : String) (n : Nat)
    (hidx : ∀ s, (idx s).isSome = true) :
    ∀ (cs : List (List String)) (src : Option QLoc) (tgts : List QLoc),
      (∃ ch ∈ cs, ch.length ≠ 3) →
      ∃ d, parseChunks idx file n cs src tgts = .error (invalidQueryLine file d) := by
  intro cs
  induction cs with
  | nil =>
    intro src tgts h
    rcases h with ⟨ch, hm, _⟩
    cases hm
  | cons ch rest ih =>
    intro src tgts h
    rcases ch with _ | ⟨a, _ | ⟨b, _ | ⟨c, _ | ⟨d', tl⟩⟩⟩⟩
    · exact ⟨"expected a number of columns that is divisible by 3, got " ++ toString n,
        by simp [parseChunks]⟩
    · exact ⟨"expected a number of columns that is divisible by 3, got " ++ toString n,
        by simp [parseChunks]⟩
    · exact ⟨"expected a number of columns that is divisible by 3, got " ++ toString n,
        by simp [parseChunks]⟩
    · have hrest : ∃ ch ∈ rest, ch.length ≠ 3 := by
        rcases h with ⟨ch', hm, hlen⟩
        rcases List.mem_cons.mp hm with h1 | h2
        · subst h1; simp at hlen
        · exact ⟨ch', h2, hlen⟩
      by_cases hb1 : b = "+"
      · cases hc : parseOffset c with
        | none =>
          exact ⟨"failed to parse offset '" ++ c ++ "'", by simp [parseChunks, hb1, hc]⟩
        | some off =>
          obtain ⟨v, hv⟩ := Option.isSome_iff_exists.mp (hidx a)
          cases src with
          | none =>
            obtain ⟨d, hd⟩ := ih (some ⟨v, true, off⟩) tgts hrest
            exact ⟨d, by simp [parseChunks, hb1, hc, hv, hd]⟩
          | some s =>
            obtain ⟨d, hd⟩ := ih (some s) (tgts ++ [⟨v, true, off⟩]) hrest
            exact ⟨d, by simp [parseChunks, hb1, hc, hv, hd]⟩
      · by_cases hb2 : b = "-"
        · cases hc : parseOffset c with
          | none =>
            exact ⟨"failed to parse offset '" ++ c ++ "'",
              by simp [parseChunks, hb1, hb2, hc]⟩
          | some off =>
            obtain ⟨v, hv⟩ := Option.isSome_iff_exists.mp (hidx a)
            cases src with
            | none =>
              obtain ⟨d, hd⟩ := ih (some ⟨v, false, off⟩) tgts hrest
              exact ⟨d, by simp [parseChunks, hb1, hb2, hc, hv, hd]⟩
            | some s =>
              obtain ⟨d, hd⟩ := ih (some s) (tgts ++ [⟨v, false, off⟩]) hrest
              exact ⟨d, by simp [parseChunks, hb1, hb2, hc, hv, hd]⟩
        · exact ⟨"expected orientation to be either '+' or '-', got '" ++ b ++ "'",
            by simp [parseChunks, hb1, hb2]⟩
    · exact ⟨"expected a number of columns that is divisible by 3, got " ++ toString n,
        by simp [parseChunks]⟩

/-- C6 counterexample: the query line `A\t+\t0\tB` (4 columns) fails with
the column-count error, whose message names the offending file and the
column count but does not contain the offending line. -/
theorem column_count_error_omits_line :
    parseQueryLine exIdx "queries.tsv" "A\t+\t0\tB" =
      ParseOutcome.error (invalidQueryLine "queries.tsv"
        "expected a number of columns that is divisible by 3, got 4") ∧
    strHasSub (invalidQueryLine "queries.tsv"
        "expected a number of columns that is divisible by 3, got 4")
      "A\t+\t0\tB" = false := by
  constructor
  · decide
  · decide

/-- C6 as amended: a query line whose column count is not divisible by 3, or
which lacks a source or a target triple, fails with a parse error naming the
offending file (assuming every node name it references is in the graph — an
unknown name can panic first, see C5); the error does not in general name
the offending line. -/
theorem parse_error_names_offending_file (idx : String → Option Nat) (file line : String)
    (hidx : ∀ n, (idx n).isSome = true)
    (hbad : (columnsOf line).length % 3 ≠ 0 ∨ (columnsOf line).length < 6) :
    ∃ d, parseQueryLine idx file line = .error (invalidQueryLine file d) := by
  by_cases h3 : (columnsOf line).length % 3 = 0
  · have hlt : (columnsOf line).length < 6 := hbad.resolve_left (not_not_intro h3)
    rcases (by omega : (columnsOf line).length = 0 ∨ (columnsOf line).length = 3) with
      h0 | h3'
    · have hcols : columnsOf line = [] := List.length_eq_zero.mp h0
      exact ⟨"expected at least one source and one target location, got line '" ++ line ++ "'",
        by simp [parseQueryLine, hcols, chunksOf3, parseChunks]⟩
    · obtain ⟨x, y, z, hcols⟩ := List.length_eq_three.mp h3'
      by_cases hy1 : y = "+"
      · cases hz : parseOffset z with
        | none =>
          exact ⟨"failed to parse offset '" ++ z ++ "'",
            by simp [parseQueryLine, hcols, chunksOf3, parseChunks, hy1, hz]⟩
        | some off =>
          obtain ⟨v, hv⟩ := Option.isSome_iff_exists.mp (hidx x)
          exact ⟨"expected at least one source and one target location, got line '"
              ++ line ++ "'",
            by simp [parseQueryLine, hcols, chunksOf3, parseChunks, hy1, hz, hv]⟩
      · by_cases hy2 : y = "-"
        · cases hz : parseOffset z with
          | none =>
            exact ⟨"failed to parse offset '" ++ z ++ "'",
              by simp [parseQueryLine, hcols, chunksOf3, parseChunks, hy1, hy2, hz]⟩
          | some off =>
            obtain ⟨v, hv⟩ := Option.isSome_iff_exists.mp (hidx x)
            exact ⟨"expected at least one source and one target location, got line '"
                ++ line ++ "'",
              by simp [parseQueryLine, hcols, chunksOf3, parseChunks, hy1, hy2, hz, hv]⟩
        · exact ⟨"expected orientation to be either '+' or '-', got '" ++ y ++ "'",
            by simp [parseQueryLine, hcols, chunksOf3, parseChunks, hy1, hy2]⟩
  · obtain ⟨ch, hm, hl⟩ := chunksOf3_has_short (columnsOf line) h3
    obtain ⟨d, hd⟩ := parseChunks_bad_chunk idx file (columnsOf line).length hidx
      (chunksOf3 (columnsOf line)) none [] ⟨ch, hm, hl⟩
    exact ⟨d, by simp [parseQueryLine, hd]⟩

/-- Witness for the amended C6: the one-column line `A` fails with an error
naming the query file. -/
theorem parse_error_names_offending_file_witness :
    ∃ d, parseQueryLine (fun _ => some 0) "queries.tsv" "A" =
      .error (invalidQueryLine "queries.tsv" d) :=
  parse_error_names_offending_file (fun _ => some 0) "queries.tsv" "A"
    (fun _ => rfl) (by decide)

/-- A query endpoint as printed: the node's name, its orientation and its
offset (the node name is looked up via `graph.node_name`, modelled here as
already resolved to the name string). -/
structure OutLoc where
  name : String
  forward : Bool
  offset : Nat

/-- The orientation symbol as written by `query.rs`:
`if location.node().is_forward() { "+" } else { "-" }`. -/
def orientSymbol (forward : Bool) : String := if forward then "+" else "-"

/-- The distance column as written by `query.rs` lines 267-271:
`distance.into_option().map(ToString::to_string).unwrap_or("None")`. -/
def distanceText (d : Option Nat) : String :=
  match d with
  | some n => toString n
  | none => "None"

/-- Embeds the output of one query row (`query.rs` lines 246-276, identical
in `run_without_index` lines 408-438): the source is written with
`write!("{}\t{}\t{}", name, offset, orientation)` and each target with
`write!("{}\t{}\t{}\t{}", name, offset, orientation, distance)`, followed by
`writeln!`. -/
def formatQueryRow (source : OutLoc) (targets : List (OutLoc × Option Nat)) : String :=
  source.name ++ "\t" ++ toString source.offset ++ "\t" ++ orientSymbol source.forward
    ++ String.join (targets.map fun td =>
        td.1.name ++ "\t" ++ toString td.1.offset ++ "\t" ++ orientSymbol td.1.forward
          ++ "\t" ++ distanceText td.2)
    ++ "\n"

/-- Modelled from the spec: "Query output: mirrors input rows, appending one
distance column per target" with each triple in the input's column order
`node \t orientation(plus or minus) \t offset`, tab-separated. -/
def specMirrorRow (source : OutLoc) (targets : List (OutLoc × Option Nat)) : String :=
  source.name ++ "\t" ++ orientSymbol source.forward ++ "\t" ++ toString source.offset
    ++ String.join (targets.map fun td =>
        "\t" ++ td.1.name ++ "\t" ++ orientSymbol td.1.forward ++ "\t"
          ++ toString td.1.offset ++ "\t" ++ distanceText td.2)
    ++ "\n"

/-- C4 at its failing input: for the query row `A + 0  B + 0` with distance
7, the code writes `A\t0\t+B\t0\t+\t7` — the offset and orientation columns
are swapped relative to the input order, and no tab separates the source
triple from the first target triple — which differs from the mirrored row
`A\t+\t0\tB\t+\t0\t7` the code's own CLI documentation and the spec
describe. -/
theorem output_row_diverges_from_input_order :
    formatQueryRow ⟨"A", true, 0⟩ [(⟨"B", true, 0⟩, some 7)] = "A\t0\t+B\t0\t+\t7\n" ∧
    specMirrorRow ⟨"A", true, 0⟩ [(⟨"B", true, 0⟩, some 7)] = "A\t+\t0\tB\t+\t0\t7\n" ∧
    formatQueryRow ⟨"A", true, 0⟩ [(⟨"B", true, 0⟩, some 7)] ≠
      specMirrorRow ⟨"A", true, 0⟩ [(⟨"B", true, 0⟩, some 7)] := by
  refine ⟨by decide, by decide, by decide⟩

/-- Embeds Rust's `Path::extension` as used by `io_util.rs` (for the final
path component, the text after the last `.`, except that there is no
extension when the component has no `.` or when its only `.` is the leading
character). -/
def rustExtension (path : String) : Option String :=
  let name := ((path.toList.foldl (fun acc c =>
      if c = '/' then [] else c :: acc) []).reverse)
  let rest := match name with
    | '.' :: t => t
    | l => l
  if rest.contains '.' then
    some (String.mk ((rest.reverse.takeWhile (fun c => c ≠ '.')).reverse))
  else
    none

/-- Embeds the compression decision of `open_optionally_compressed_file`
(`io_util.rs` lines 18-29): gzip decoding is applied exactly when the
extension is `gz` or `gzip`. -/
def openUsesGzip (path : String) : Bool :=
  rustExtension path == some "gz" || rustExtension path == some "gzip"

/-- Embeds the compression decision of `write_optionally_compressed_file`
(`io_util.rs` lines 31-46): gzip encoding is applied exactly when the
extension is `gz` or `gzip`. -/
def writeUsesGzip (path : String) : Bool :=
  rustExtension path == some "gz" || rustExtension path == some "gzip"

/-- C10: for every path, both the read helper and the write helper apply
gzip (de)compression exactly when the path's final extension is `gz` or
`gzip`; every other path is handled uncompressed, and the choice is the same
pure function of the extension for reading and writing. -/
theorem gzip_iff_extension (path : String) :
    (openUsesGzip path = true ↔
      (rustExtension path = some "gz" ∨ rustExtension path = some "gzip")) ∧
    writeUsesGzip path = openUsesGzip path := by
  constructor
  · simp [openUsesGzip]
  · rfl

/-- Witness for C10: the claim instantiated at the path `graph.gfa.gz`. -/
theorem gzip_iff_extension_witness :
    (openUsesGzip "graph.gfa.gz" = true ↔
      (rustExtension "graph.gfa.gz" = some "gz" ∨
        rustExtension "graph.gfa.gz" = some "gzip")) ∧
    writeUsesGzip "graph.gfa.gz" = openUsesGzip "graph.gfa.gz" :=
  gzip_iff_extension "graph.gfa.gz"

/-- Modelled from the spec: the Graph Store (§2) as the path engines see it
— a finite node count and a list of weighted directed arcs
`(from, to, weight)` with non-negative integer weights.  The engines of the
external crate `spqr_shortest_path_index` (`GfaDijkstra`, `OverlayDijkstra`)
are not part of this repository's sources, so they are modelled here from
§4.3/§4.4; a `Nat` vertex stands for an oriented node/offset Location. -/
structure SGraph where
  nodeCount : Nat
  edges : List (Nat × Nat × Nat)

/-- Minimum of two optional lengths, where `none` is the unreachable
sentinel (an infinite distance). -/
def optMin : Option Nat → Option Nat → Option Nat
  | none, b => b
  | some a, none => some a
  | some a, some b => some (min a b)

/-- The initial tentative distances of a search seeded at `s`. -/
def initDist (s : Nat) : Nat → Option Nat :=
  fun v => if v = s then some 0 else none

/-- One relaxation round of a shortest-path search: each vertex's tentative
distance is lowered by every arc ending there. -/
def relaxStep (edges : List (Nat × Nat × Nat)) (d : Nat → Option Nat) :
    Nat → Option Nat :=
  fun v => edges.foldl
    (fun acc e =>
      if e.2.1 = v then optMin acc ((d e.1).map (fun x => x + e.2.2)) else acc)
    (d v)

/-- Runs `k` relaxation rounds. -/
def iterRelax (edges : List (Nat × Nat × Nat)) : Nat → (Nat → Option Nat) → Nat → Option Nat
  | 0, d => d
  | k + 1, d => iterRelax edges k (relaxStep edges d)

/-- Modelled from the spec: the Direct Path Engine (§4.4, `GfaDijkstra`):
unrestricted multi-target shortest-path search over the whole Graph Store,
expanding by increasing distance until stable — computed here as
`nodeCount` relaxation rounds seeded at the source; a vertex never reached
keeps the unreachable sentinel `none`. -/
def directShortestPath (g : SGraph) (s t : Nat) : Option Nat :=
  iterRelax g.edges g.nodeCount (initDist s) t

/-- The arcs of a graph restricted to one structural piece of the
decomposition: both endpoints must belong to the piece `c`. -/
def restrictEdges (comp : Nat → Nat) (c : Nat) (edges : List (Nat × Nat × Nat)) :
    List (Nat × Nat × Nat) :=
  edges.filter (fun e => (comp e.1 == c) && (comp e.2.1 == c))

/-- Modelled from the spec: the Component level of the Decomposition
Hierarchy (§3): `comp` assigns every node its unique Component, and since
Components are maximal connected subgraphs, no arc joins two distinct
Components. -/
def validDecomp (g : SGraph) (comp : Nat → Nat) : Prop :=
  ∀ e ∈ g.edges, comp e.1 = comp e.2.1

/-- Modelled from the spec: the Overlay Path Engine (§4.3,
`OverlayDijkstra`): the hierarchical search composes within-piece distances,
so the whole expansion stays inside the source's Component — modelled as the
same relaxation search restricted to the Component's arcs — and a target in
a different Component yields the unreachable sentinel, not a panic. -/
def overlayShortestPath (g : SGraph) (comp : Nat → Nat) (s t : Nat) : Option Nat :=
  if comp s = comp t then
    iterRelax (restrictEdges comp (comp s) g.edges) g.nodeCount (initDist s) t
  else
    none

/-- Embeds the per-target distance collection of the query loop (`query.rs`
lines 226-230): `query.distances = query.targets.iter().map(|&target|
paths.get(&target) ...).collect()` — one independent slot per target. -/
def collectDistances (paths : Nat → Option Nat) (targets : List Nat) : List (Option Nat) :=
  targets.map paths

/-- A relaxation round keeps vertices outside the source's Component at the
unreachable sentinel, provided no arc crosses Components and the input
distances were already `none` outside that Component. -/
theorem foldl_relax_none (comp : Nat → Nat) (c : Nat) (d : Nat → Option Nat)
    (hd : ∀ u, comp u ≠ c → d u = none) (v : Nat) (hv : comp v ≠ c) :
    ∀ es : List (Nat × Nat × Nat), (∀ e ∈ es, comp e.1 = comp e.2.1) →
      es.foldl
        (fun acc e =>
          if e.2.1 = v then optMin acc ((d e.1).map (fun x => x + e.2.2)) else acc)
        none = none := by
  intro es
  induction es with
  | nil => intro _; rfl
  | cons e es ih =>
    intro hsub
    have he : comp e.1 = comp e.2.1 := hsub e (List.mem_cons_self _ _)
    simp only [List.foldl_cons]
    by_cases hev : e.2.1 = v
    · have hnone : d e.1 = none := hd e.1 (by rw [he, hev]; exact hv)
      rw [if_pos hev, hnone]
      exact ih (fun e' h' => hsub e' (List.mem_cons_of_mem _ h'))
    · rw [if_neg hev]
      exact ih (fun e' h' => hsub e' (List.mem_cons_of_mem _ h'))

/-- Restates `foldl_relax_none` for `relaxStep`. -/
theorem relaxStep_none_outside (edges : List (Nat × Nat × Nat)) (comp : Nat → Nat)
    (c : Nat) (hval : ∀ e ∈ edges, comp e.1 = comp e.2.1)
    (d : Nat → Option Nat) (hd : ∀ u, comp u ≠ c → d u = none)
    (v : Nat) (hv : comp v ≠ c) : relaxStep edges d v = none := by
  unfold relaxStep
  rw [hd v hv]
  exact foldl_relax_none comp c d hd v hv edges hval

/-- Iterated relaxation never escapes the source's Component. -/
theorem iterRelax_none_outside (edges : List (Nat × Nat × Nat)) (comp : Nat → Nat)
    (c : Nat) (hval : ∀ e ∈ edges, comp e.1 = comp e.2.1) :
    ∀ (k : Nat) (d : Nat → Option Nat), (∀ u, comp u ≠ c → d u = none) →
      ∀ v, comp v ≠ c → iterRelax edges k d v = none := by
  intro k
  induction k with
  | zero => intro d hd v hv; exact hd v hv
  | succ k ih =>
    intro d hd v hv
    rw [iterRelax]
    exact ih (relaxStep edges d)
      (fun u hu => relaxStep_none_outside edges comp c hval d hd u hu) v hv

/-- The restricted fold over the Component's arcs agrees with the fold over
all arcs, one accumulator at a time. -/
theorem foldl_relax_filter (comp : Nat → Nat) (c : Nat) (d : Nat → Option Nat)
    (v : Nat) (hv : comp v = c) :
    ∀ es : List (Nat × Nat × Nat), (∀ e ∈ es, comp e.1 = comp e.2.1) →
      ∀ acc : Option Nat,
        es.foldl
          (fun acc e =>
            if e.2.1 = v then optMin acc ((d e.1).map (fun x => x + e.2.2)) else acc)
          acc =
        (es.filter (fun e => (comp e.1 == c) && (comp e.2.1 == c))).foldl
          (fun acc e =>
            if e.2.1 = v then optMin acc ((d e.1).map (fun x => x + e.2.2)) else acc)
          acc := by
  intro es
  induction es with
  | nil => intro _ acc; rfl
  | cons e es ih =>
    intro hsub acc
    have he : comp e.1 = comp e.2.1 := hsub e (List.mem_cons_self _ _)
    have hesub : ∀ e' ∈ es, comp e'.1 = comp e'.2.1 :=
      fun e' h' => hsub e' (List.mem_cons_of_mem _ h')
    cases hp : ((comp e.1 == c) && (comp e.2.1 == c)) with
    | true =>
      simp only [List.filter_cons, hp, if_true, List.foldl_cons]
      exact ih hesub _
    | false =>
      have hev : e.2.1 ≠ v := by
        intro hev
        have h1 : comp e.2.1 = c := by rw [hev]; exact hv
        have h2 : comp e.1 = c := by rw [he]; exact h1
        simp [h1, h2] at hp
      simp only [List.filter_cons, hp, Bool.false_eq_true, if_false, List.foldl_cons,
        if_neg hev]
      exact ih hesub acc

/-- The arcs dropped by the Component restriction never contribute to a
relaxation round: one step over all arcs equals one step over the restricted
arcs. -/
theorem relaxStep_restrict (edges : List (Nat × Nat × Nat)) (comp : Nat → Nat)
    (c : Nat) (hval : ∀ e ∈ edges, comp e.1 = comp e.2.1)
    (d : Nat → Option Nat) (hd : ∀ u, comp u ≠ c → d u = none) (v : Nat) :
    relaxStep edges d v = relaxStep (restrictEdges comp c edges) d v := by
  have hval' : ∀ e ∈ restrictEdges comp c edges, comp e.1 = comp e.2.1 :=
    fun e he => hval e (List.mem_of_mem_filter he)
  by_cases hv : comp v = c
  · unfold relaxStep restrictEdges
    exact foldl_relax_filter comp c d v hv edges hval (d v)
  · rw [relaxStep_none_outside edges comp c hval d hd v hv,
      relaxStep_none_outside (restrictEdges comp c edges) comp c hval' d hd v hv]

/-- Iterated relaxation over all arcs equals iterated relaxation over the
source Component's arcs. -/
theorem iterRelax_restrict (edges : List (Nat × Nat × Nat)) (comp : Nat → Nat)
    (c : Nat) (hval : ∀ e ∈ edges, comp e.1 = comp e.2.1) :
    ∀ (k : Nat) (d : Nat → Option Nat), (∀ u, comp u ≠ c → d u = none) →
      ∀ v, iterRelax edges k d v = iterRelax (restrictEdges comp c edges) k d v := by
  intro k
  induction k with
  | zero => intro d _ v; rfl
  | succ k ih =>
    intro d hd v
    rw [iterRelax, iterRelax]
    have hfun : relaxStep edges d = relaxStep (restrictEdges comp c edges) d :=
      funext (relaxStep_restrict edges comp c hval d hd)
    rw [hfun]
    exact ih (relaxStep (restrictEdges comp c edges) d)
      (fun u hu => relaxStep_none_outside (restrictEdges comp c edges) comp c
        (fun e he => hval e (List.mem_of_mem_filter he)) d hd u hu) v

/-- The search seed is unreachable-everywhere outside the source's
Component. -/
theorem initDist_none_outside (comp : Nat → Nat) (s : Nat) :
    ∀ u, comp u ≠ comp s → initDist s u = none := by
  intro u hu
  unfold initDist
  rw [if_neg]
  intro h
  subst h
  exact hu rfl

/-- C1: for every graph, every decomposition whose Components contain both
endpoints of each arc, and every query, the Overlay engine's result equals
the Direct engine's result — the index changes performance only, never a
returned distance. -/
theorem overlay_engine_equals_direct_engine (g : SGraph) (comp : Nat → Nat)
    (hval : validDecomp g comp) (s t : Nat) :
    overlayShortestPath g comp s t = directShortestPath g s t := by
  unfold overlayShortestPath directShortestPath
  by_cases hst : comp s = comp t
  · rw [if_pos hst]
    exact (iterRelax_restrict g.edges comp (comp s) hval g.nodeCount (initDist s)
      (initDist_none_outside comp s) t).symm
  · rw [if_neg hst]
    exact (iterRelax_none_outside g.edges comp (comp s) hval g.nodeCount (initDist s)
      (initDist_none_outside comp s) t (fun h => hst h.symm)).symm

/-- A concrete two-component graph for the engine witnesses: nodes 0,1 form
one Component joined by an arc of weight 3 each way, nodes 2,3 the other. -/
def gEx : SGraph := ⟨4, [(0, 1, 3), (1, 0, 3), (2, 3, 4)]⟩

/-- The Component assignment of `gEx`: nodes 0,1 in Component 0, nodes 2,3
in Component 1. -/
def compEx : Nat → Nat := fun v => v / 2

/-- Witness for C1: on the concrete two-component graph, the Overlay and
Direct engines agree on the query from node 0 to node 1. -/
theorem overlay_engine_equals_direct_engine_witness :
    validDecomp gEx compEx ∧
    overlayShortestPath gEx compEx 0 1 = directShortestPath gEx 0 1 :=
  ⟨by unfold validDecomp; decide,
   overlay_engine_equals_direct_engine gEx compEx (by unfold validDecomp; decide) 0 1⟩

/-- C7: a query whose source and target lie in disjoint Components reports
the unreachable sentinel from both engines — never a numeric value and never
a crash — and the batch loop assigns every target its own independent
distance slot (`targets.map`), so one unreachable target never disturbs the
other targets' distances. -/
theorem disjoint_components_unreachable (g : SGraph) (comp : Nat → Nat)
    (hval : validDecomp g comp) (s t : Nat) (hst : comp s ≠ comp t) :
    directShortestPath g s t = none ∧
    overlayShortestPath g comp s t = none ∧
    ∀ (targets : List Nat) (i : Nat),
      (collectDistances (fun u => directShortestPath g s u) targets)[i]? =
        (targets[i]?).map (fun u => directShortestPath g s u) := by
  refine ⟨?_, ?_, ?_⟩
  · exact iterRelax_none_outside g.edges comp (comp s) hval g.nodeCount (initDist s)
      (initDist_none_outside comp s) t (fun h => hst h.symm)
  · simp [overlayShortestPath, hst]
  · intro targets i
    simp [collectDistances]

/-- Witness for C7: on the concrete two-component graph, the cross-Component
query 0 → 3 is unreachable for both engines, while the other target in the
same batch keeps its own slot. -/
theorem disjoint_components_unreachable_witness :
    validDecomp gEx compEx ∧ compEx 0 ≠ compEx 3 ∧
    directShortestPath gEx 0 3 = none ∧
    overlayShortestPath gEx compEx 0 3 = none ∧
    (collectDistances (fun u => directShortestPath gEx 0 u) [3, 1])[0]? =
      (([3, 1] : List Nat)[0]?).map (fun u => directShortestPath gEx 0 u) := by
  have h := disjoint_components_unreachable gEx compEx (by unfold validDecomp; decide) 0 3
    (by decide)
  exact ⟨by unfold validDecomp; decide, by decide, h.1, h.2.1, h.2.2 [3, 1] 0⟩

/-- C9: a query run without an index file unconditionally calls
`run_without_index::<u64>`: it selects the Direct engine, instantiates the
whole run at 64-bit word width, and warns; no input exists in that mode that
could select another width. -/
theorem no_index_runs_at_64_bits :
    queryRun none = .ok ⟨.direct, 64, true, []⟩ := rfl

end Biopath
